import Mathlib

/-!
Verification of the gear-generation module `freecad/gears/features.py`
(freecad.gears) against its natural-language specification.

The development shallowly embeds the algorithmic parts of the source:

* the outline assembler shared by `InvoluteGear.generate_gear_shape` and
  `CycloidGear.generate_gear_shape` (rotate one tooth `z - 1` times, insert
  connecting segments, close the loop);
* the solid-assembly dispatch on `height`, `beta`, `double_helix` and
  `simple`;
* the hypocycloid cam helpers `check_limit` and the pressure-angle scan of
  `HypoCycloidGear.generate_gear_shape`, and the secondary-disk matrix;
* the timing-belt tangency closed form for `phi4` of
  `TimingGear.generate_gear_shape`;
* the double-helix extrusion `helicalextrusion` as a point-set sweep;
* the signed backlash factor of `InvoluteGear.generate_gear_shape`.

Real-valued transcendental inputs that the source obtains from numpy
(rotation matrices, pressure-angle curves, tangent values) enter the
embedding as explicit function or value parameters; each definition's
doc comment records the source expression the parameter stands for.
-/

/-! ### Outline assembler (InvoluteGear / CycloidGear.generate_gear_shape)

Source, `features.py` lines 211-218 (involute) and 520-527 (cycloid), both
verbatim:

    pts = fp.gear.points(num=fp.numpoints)
    rotated_pts = pts
    rot = rotation(-fp.gear.phipart)
    for i in range(fp.gear.z - 1):
        rotated_pts = list(map(rot, rotated_pts))
        pts.append(np.array([pts[-1][-1], rotated_pts[0][0]]))
        pts += rotated_pts
    pts.append(np.array([pts[-1][-1], pts[0][0]]))

Points are abstract (`P`); `rot` stands for `rotation(-fp.gear.phipart)`,
the rotation by the angular tooth pitch, applied pointwise to each flank
list.  A tooth profile is a list of point lists. -/

/-- Last point of the last point-list, `pts[-1][-1]` in the source
(default value for the empty case, which the source would crash on). -/
def lastPt {P : Type} [Inhabited P] (pts : List (List P)) : P :=
  (pts.getLastD []).getLastD default

/-- First point of the first point-list, `pts[0][0]` in the source. -/
def firstPt {P : Type} [Inhabited P] (pts : List (List P)) : P :=
  (pts.headD []).headD default

/-- Body of the `for i in range(z - 1)` loop: `k` iterations remain,
`pts` is the accumulated outline, `rotated` is the running rotated copy. -/
def assembleLoop {P : Type} [Inhabited P] (rot : P → P) :
    Nat → List (List P) → List (List P) → List (List P)
  | 0, pts, _ => pts
  | Nat.succ k, pts, rotated =>
    assembleLoop rot k
      (pts ++ [[lastPt pts, firstPt (rotated.map (List.map rot))]] ++
        rotated.map (List.map rot))
      (rotated.map (List.map rot))

/-- Outline assembly of `generate_gear_shape` (involute and cycloid):
run the loop `z - 1` times starting from the tooth profile, then append
the closing segment `[pts[-1][-1], pts[0][0]]`. -/
def assemble_outline {P : Type} [Inhabited P] (rot : P → P) (z : Nat)
    (tooth : List (List P)) : List (List P) :=
  assembleLoop rot (z - 1) tooth tooth ++
    [[lastPt (assembleLoop rot (z - 1) tooth tooth),
      firstPt (assembleLoop rot (z - 1) tooth tooth)]]

/-- Copy `i` of the tooth profile: every point rotated `i` times by the
angular tooth pitch. -/
def toothCopy {P : Type} (rot : P → P) (i : Nat) (tooth : List (List P)) :
    List (List P) :=
  tooth.map (List.map (fun p => rot^[i] p))

/-- Specification-side outline, following the spec's words: copies
`0, 1, ..., n` of the tooth joined by connecting segments whose endpoints
are the last point of the already-rotated copy `i` and the first point of
the already-rotated copy `i + 1`. -/
def specChain {P : Type} [Inhabited P] (rot : P → P) (tooth : List (List P)) :
    Nat → List (List P)
  | 0 => tooth
  | Nat.succ n =>
    specChain rot tooth n ++
      [[lastPt (toothCopy rot n tooth), firstPt (toothCopy rot (n + 1) tooth)]] ++
      toothCopy rot (n + 1) tooth

/-- Specification-side closed outline for `z ≥ 1` teeth: the chain of the
`z` copies followed by the closing segment from the last point of the last
copy back to the first point of the first copy. -/
def spec_outline {P : Type} [Inhabited P] (rot : P → P) (z : Nat)
    (tooth : List (List P)) : List (List P) :=
  specChain rot tooth (z - 1) ++
    [[lastPt (toothCopy rot (z - 1) tooth), firstPt tooth]]

/-- Error taxonomy named by the specification.  The source module never
raises any of these: the only exception in `features.py` is the
`NotImplementedError` of the abstract base class. -/
inductive GearError where
  | invalidParameter
  | rootNotFound
  | degenerateGeometry
deriving DecidableEq

/-- Result of `InvoluteGear.generate_gear_shape`'s outline stage, as an
`Except` to record whether any categorized error is raised: the source
contains no `raise` and no validation, so the result is always `ok` with
the assembled outline, whatever the parameters (including `teeth = 0`,
where `range(fp.gear.z - 1)` is empty and the loop body never runs). -/
def involute_generate {P : Type} [Inhabited P] (rot : P → P) (z : Nat)
    (tooth : List (List P)) : Except GearError (List (List P)) :=
  Except.ok (assemble_outline rot z tooth)

/-! ### Solid-assembly dispatch

Source: `features.py` lines 219-236 (involute), 528-541 (cycloid),
1112-1124 (timing).  The helical sweep angle `height * tan(beta) * 2 / d`
and the pitch radius `dw / 2` are transcendental values computed upstream;
they enter as the opaque parameters `angle` and `rw`. -/

/-- Shape request handed to the geometry kernel. -/
inductive GearSolid where
  | wire
  | extrusion (height : ℚ)
  | helicalExtrusion (height angle : ℚ) (doubleHelix : Bool)
  | cylinder (radius height : ℚ)
deriving DecidableEq

/-- Dispatch of `InvoluteGear.generate_gear_shape`: with `simple` unset,
height `0` returns the outline wire, `beta = 0` a straight extrusion,
otherwise a helical extrusion; with `simple` set, a plain cylinder of the
pitch radius is returned regardless of height. -/
def involute_shape_dispatch (simple : Bool) (height beta : ℚ)
    (doubleHelix : Bool) (angle rw : ℚ) : GearSolid :=
  if !simple then
    if height = 0 then GearSolid.wire
    else if beta = 0 then GearSolid.extrusion height
    else GearSolid.helicalExtrusion height angle doubleHelix
  else GearSolid.cylinder rw height

/-- Dispatch of `CycloidGear.generate_gear_shape` (no `simple` branch). -/
def cycloid_shape_dispatch (height beta : ℚ) (doubleHelix : Bool)
    (angle : ℚ) : GearSolid :=
  if height = 0 then GearSolid.wire
  else if beta = 0 then GearSolid.extrusion height
  else GearSolid.helicalExtrusion height angle doubleHelix

/-- Dispatch of `TimingGear.generate_gear_shape`: wire at height `0`,
otherwise a straight extrusion of the face. -/
def timing_shape_dispatch (height : ℚ) : GearSolid :=
  if height = 0 then GearSolid.wire else GearSolid.extrusion height

/-! ### Hypocycloid cam: check_limit

Source, `features.py` lines 1302-1307:

    def check_limit(self,x,y,maxrad,minrad,offset):
        r, a = self.to_polar(x, y)
        if (r > maxrad) or (r < minrad):
                r = r - offset
                x, y = self.to_rect(r, a)
        return x, y

Profile points are carried in polar coordinates `(r, a)` with
`r = sqrt(x^2 + y^2) ≥ 0` and `a = atan2(y, x)`; `to_polar` and `to_rect`
are mutually inverse on that representation, so they become the identity
round-trip and `check_limit` is exactly its action on `(r, a)`. -/

/-- Point in polar coordinates. -/
structure PolarPt where
  r : ℚ
  a : ℚ
deriving DecidableEq

/-- Radial clamp `HypoCycloidGear.check_limit`: outside the band the code
sets `r = r - offset` (in both branches) and keeps the angle; inside the
band the input is returned unchanged. -/
def check_limit (p : PolarPt) (maxrad minrad offset : ℚ) : PolarPt :=
  if p.r > maxrad ∨ p.r < minrad then PolarPt.mk (p.r - offset) p.a else p

/-! ### Hypocycloid cam: pressure-angle limit scan

Source, `features.py` lines 1322-1332:

    minAngle = -1.0
    maxAngle = -1.0
    for i in range(0, 180):
        x = self.calc_pressure_angle(p, d, n, i * math.pi / 180.)
        if ( x < ang) and (minAngle < 0):
            minAngle = float(i)
        if (x < -ang) and (maxAngle < 0):
            maxAngle = float(i-1)
    minRadius = self.calc_pressure_limit(p, d, e, n, minAngle * math.pi / 180.)
    maxRadius = self.calc_pressure_limit(p, d, e, n, maxAngle * math.pi / 180.)

The transcendental curves enter as oracles: `f i` stands for
`calc_pressure_angle(p, d, n, i * pi / 180)` at the integer degree `i`, and
`g x` for `calc_pressure_limit(p, d, e, n, x * pi / 180)` at the degree
value `x`. -/

/-- One iteration of the scan loop at degree `i` with pressure angle `x`:
the state is the pair `(minAngle, maxAngle)`. -/
def pressure_scan_step (ang x : ℚ) (i : Nat) (st : ℚ × ℚ) : ℚ × ℚ :=
  ((if x < ang ∧ st.1 < 0 then (i : ℚ) else st.1),
   (if x < -ang ∧ st.2 < 0 then (i : ℚ) - 1 else st.2))

/-- The scan over the integer degrees `0, 1, ..., 179` (`range(0, 180)`),
starting from `(-1.0, -1.0)`. -/
def pressure_scan (f : Nat → ℚ) (ang : ℚ) : ℚ × ℚ :=
  (List.range 180).foldl (fun st i => pressure_scan_step ang (f i) i st) (-1, -1)

/-- Bracketing radii: `calc_pressure_limit` evaluated at the two angles the
scan produced (`g` is the radius oracle, in degrees). -/
def pressure_limit_radii (f : Nat → ℚ) (g : ℚ → ℚ) (ang : ℚ) : ℚ × ℚ :=
  ((g (pressure_scan f ang).1), (g (pressure_scan f ang).2))

/-! ### Hypocycloid cam: secondary disk matrix

Source, `features.py` lines 1376-1383:

    second_cam = cam.copy()
    mat= App.Matrix()
    mat.rotateZ(np.pi)
    mat.move(App.Vector(-e, 0, 0))
    if n%2 == 0:
        mat.rotateZ(np.pi/n)
    mat.move(App.Vector(e, 0, 0))
    second_cam = second_cam.transformGeometry(mat)

FreeCAD's `Matrix.rotateZ` and `Matrix.move` left-multiply, so successive
calls apply to a point in call order (the rotation-about-the-cam-center
matrix built at lines 1352-1355, `move(+e); rotateZ; move(-e)`, fixes
`(-e, 0)` exactly under this convention).  A rotation by the angle `t` is
represented by the pair `(c, s) = (cos t, sin t)`; for the half turn
`rotateZ(pi)` this pair is exactly `(-1, 0)`. -/

/-- Planar affine map `p ↦ (a x + b y + tx, c x + d y + ty)`, the
`App.Matrix` restricted to the z = 0 plane. -/
structure Aff where
  a : ℚ
  b : ℚ
  c : ℚ
  d : ℚ
  tx : ℚ
  ty : ℚ
deriving DecidableEq

/-- Apply an affine map to a point. -/
def Aff.apply (m : Aff) (p : ℚ × ℚ) : ℚ × ℚ :=
  (m.a * p.1 + m.b * p.2 + m.tx, m.c * p.1 + m.d * p.2 + m.ty)

/-- Identity matrix, `App.Matrix()`. -/
def affId : Aff := Aff.mk 1 0 0 1 0 0

/-- FreeCAD `mat.rotateZ(t)` with `(c, s) = (cos t, sin t)`: the rotation
left-multiplies the current matrix. -/
def matRotateZ (m : Aff) (c s : ℚ) : Aff :=
  Aff.mk (c * m.a - s * m.c) (c * m.b - s * m.d)
    (s * m.a + c * m.c) (s * m.b + c * m.d)
    (c * m.tx - s * m.ty) (s * m.tx + c * m.ty)

/-- FreeCAD `mat.move(v)`: adds to the translation column
(left-multiplication by a translation). -/
def matMove (m : Aff) (v : ℚ × ℚ) : Aff :=
  Aff.mk m.a m.b m.c m.d (m.tx + v.1) (m.ty + v.2)

/-- The secondary-disk matrix of `HypoCycloidGear.generate_gear_shape`:
`rotateZ(pi)`, `move(-e, 0)`, then `rotateZ(pi / n)` when `n` is even
(with `(c, s) = (cos (pi / n), sin (pi / n))`), then `move(e, 0)`. -/
def second_cam_mat (n : Nat) (e c s : ℚ) : Aff :=
  matMove
    (if n % 2 = 0 then matRotateZ (matMove (matRotateZ affId (-1) 0) (-e, 0)) c s
     else matMove (matRotateZ affId (-1) 0) (-e, 0))
    (e, 0)

/-- Rotation about the center `ctr` by the angle with cosine `c` and
sine `s`. -/
def rotAbout (ctr : ℚ × ℚ) (c s : ℚ) (p : ℚ × ℚ) : ℚ × ℚ :=
  (c * (p.1 - ctr.1) - s * (p.2 - ctr.2) + ctr.1,
   s * (p.1 - ctr.1) + c * (p.2 - ctr.2) + ctr.2)

/-- The transformation the claim describes: a half turn about the cam
center `(-e, 0)`, composed with an additional rotation by `pi / n`
(cosine `c`, sine `s`), also taken about the cam center, iff `n` is
even. -/
def claimed_second_map (n : Nat) (e c s : ℚ) (p : ℚ × ℚ) : ℚ × ℚ :=
  if n % 2 = 0 then rotAbout (-e, 0) c s (rotAbout (-e, 0) (-1) 0 p)
  else rotAbout (-e, 0) (-1) 0 p

/-! ### Hypocycloid cam: show flags

Source, `features.py` lines 1366-1416: the list `to_be_fused` receives the
main disk when `show_disk0`, the secondary disk when `show_disk1`, and the
pins when `show_pins`; the function ends with

    if to_be_fused:
        return Part.makeCompound(to_be_fused)

falling through to an implicit `return None` when the list is empty.  The
geometric content of each part is irrelevant to that control flow and is
abstracted to a tag. -/

/-- Tags for the three optional parts of the hypocycloid compound. -/
inductive HypoPart where
  | disk0
  | disk1
  | pins
deriving DecidableEq

/-- Control flow of `HypoCycloidGear.generate_gear_shape` over the three
show flags: `some` compound list when any part is requested, `none`
(Python's implicit `return None`) otherwise. -/
def hypo_generate (showDisk0 showDisk1 showPins : Bool) :
    Option (List HypoPart) :=
  let l := (if showDisk0 then [HypoPart.disk0] else []) ++
    (if showDisk1 then [HypoPart.disk1] else []) ++
    (if showPins then [HypoPart.pins] else [])
  if l ≠ [] then some l else none

/-! ### Signed backlash (InvoluteGear.generate_gear_shape)

Source, `features.py` lines 194-195:

    fp.gear.backlash = fp.backlash.Value * \
        (-fp.reversed_backlash + 0.5) * 2.

with the Python bool coerced to `0` or `1`. -/

/-- Backlash value handed to the tooth generator. -/
def backlash_signed (backlash : ℚ) (reversedBacklash : Bool) : ℚ :=
  backlash * (-(if reversedBacklash then (1 : ℚ) else 0) + 1 / 2) * 2

/-! ### Timing-belt tangency closed form (TimingGear.generate_gear_shape)

Source, `features.py` lines 1059-1081.  With `r5 = rp - u`,
`m_23y = offset / tan(phi_12) + m_12[1]`, the code solves the tangency
equation

    ((r5 - r_34) * sin(phi4) + offset) ** 2 +
    ((r5 - r_34) * cos(phi4) - m_23y) ** 2 == (r_34 + r_23) ** 2

in closed form:

    phi4 = 2*np.arctan((-2*offset*r5 + 2*offset*r_34 + np.sqrt(<radicand>))
                       / <denominator>)

`tg_radicand` and `tg_denom` below are the literal radicand and
denominator polynomials of that expression; `w` stands for
`np.sqrt(<radicand>)`, characterized by `w ^ 2 = tg_radicand ...`. -/

/-- Radicand under `np.sqrt` in the closed-form `phi4` (source lines
1074-1080, verbatim term by term). -/
def tg_radicand (m23y offset r5 r34 r23 : ℝ) : ℝ :=
  -m23y ^ 4 - 2 * m23y ^ 2 * offset ^ 2 +
  2 * m23y ^ 2 * r5 ^ 2 - 4 * m23y ^ 2 * r5 * r34 + 2 * m23y ^ 2 * r23 ^ 2 +
  4 * m23y ^ 2 * r23 * r34 + 4 * m23y ^ 2 * r34 ^ 2 - offset ^ 4 +
  2 * offset ^ 2 * r5 ^ 2 -
  4 * offset ^ 2 * r5 * r34 + 2 * offset ^ 2 * r23 ^ 2 +
  4 * offset ^ 2 * r23 * r34 + 4 * offset ^ 2 * r34 ^ 2 -
  r5 ^ 4 + 4 * r5 ^ 3 * r34 + 2 * r5 ^ 2 * r23 ^ 2 + 4 * r5 ^ 2 * r23 * r34 -
  4 * r5 ^ 2 * r34 ^ 2 - 4 * r5 * r23 ^ 2 * r34 - 8 * r5 * r23 * r34 ^ 2 -
  r23 ^ 4 - 4 * r23 ^ 3 * r34 - 4 * r23 ^ 2 * r34 ^ 2

/-- Denominator of the arctangent argument (source lines 1080-1081). -/
def tg_denom (m23y offset r5 r34 r23 : ℝ) : ℝ :=
  m23y ^ 2 + 2 * m23y * r5 - 2 * m23y * r34 + offset ^ 2 + r5 ^ 2 -
  2 * r5 * r34 - r23 ^ 2 - 2 * r23 * r34

/-- Numerator of the arctangent argument (source line 1074), with `w`
standing for the square root of the radicand. -/
def tg_num (offset r5 r34 w : ℝ) : ℝ :=
  -2 * offset * r5 + 2 * offset * r34 + w

/-- The closed-form tangency angle `phi4` of the source. -/
noncomputable def tg_phi4 (m23y offset r5 r34 r23 w : ℝ) : ℝ :=
  2 * Real.arctan (tg_num offset r5 r34 w / tg_denom m23y offset r5 r34 r23)

/-- Residual of the tangency equation at the direction `(s, c) =
(sin phi4, cos phi4)`. -/
def tg_residual (m23y offset r5 r34 r23 s c : ℝ) : ℝ :=
  ((r5 - r34) * s + offset) ^ 2 + ((r5 - r34) * c - m23y) ^ 2 -
    (r34 + r23) ^ 2

/-! ### Double-helix extrusion (helicalextrusion)

Source, `features.py` lines 1429-1443:

    def helicalextrusion(wire, height, angle, double_helix=False):
        direction = bool(angle < 0)
        if double_helix:
            first_spine = makeHelix(height * 2. * np.pi /
                                    abs(angle), 0.5 * height, 10., 0, direction)
            first_solid = first_spine.makePipeShell([wire], True, True)
            second_solid = first_solid.mirror(
                fcvec([0., 0., 0.]), fcvec([0, 0, 1]))
            faces = first_solid.Faces + second_solid.Faces
            faces = [f for f in faces if not on_mirror_plane(
                f, 0., fcvec([0., 0., 1.]))]
            solid = makeSolid(makeShell(faces))
            mat = App.Matrix()
            mat.move(fcvec([0, 0, 0.5 * height]))
            return solid.transformGeometry(mat)

The kernel collaborators `makeHelix`/`makePipeShell` are modelled as the
point set swept by the wire while it rotates about the z axis: the helix
pitch `height * 2 * pi / abs(angle)` together with the handedness flag
`direction = (angle < 0)` gives the signed rotation `angle * z / height`
at altitude `z`, so the sign of `angle` selects the handedness.  The
rotation family `rot` is an oracle for `t ↦ rotation about z by t`.  The
face surgery (`on_mirror_plane` filtering, shell, solid) re-solidifies the
union of the two half solids; at the point-set level the result is that
union, translated up by `height / 2`. -/

/-- Point set swept by `wire` between the altitudes `zlo` and `zhi`, the
wire rotated by `angle * z / height` at altitude `z` (the helical pipe
shell; the sign of `angle` is the handedness). -/
def helixSweep (rot : ℝ → ℝ × ℝ → ℝ × ℝ) (wire : Set (ℝ × ℝ))
    (height angle zlo zhi : ℝ) : Set (ℝ × ℝ × ℝ) :=
  {q : ℝ × ℝ × ℝ | ∃ p ∈ wire, ∃ z : ℝ, zlo ≤ z ∧ z ≤ zhi ∧
    q = ((rot (angle * z / height) p).1, (rot (angle * z / height) p).2, z)}

/-- Mirror through the plane `z = zc` (the source mirrors through
`z = 0`). -/
def mirrorZ (zc : ℝ) (q : ℝ × ℝ × ℝ) : ℝ × ℝ × ℝ :=
  (q.1, q.2.1, 2 * zc - q.2.2)

/-- Translation along the z axis, `mat.move([0, 0, h])`. -/
def translateZ (h : ℝ) (q : ℝ × ℝ × ℝ) : ℝ × ℝ × ℝ :=
  (q.1, q.2.1, q.2.2 + h)

/-- Double-helix branch of `helicalextrusion`: one half-height sweep, its
mirror image through `z = 0`, fused and moved up by `height / 2`. -/
def helicalextrusion_dh (rot : ℝ → ℝ × ℝ → ℝ × ℝ) (wire : Set (ℝ × ℝ))
    (height angle : ℝ) : Set (ℝ × ℝ × ℝ) :=
  translateZ (height / 2) ''
    (helixSweep rot wire height angle 0 (height / 2) ∪
      mirrorZ 0 '' helixSweep rot wire height angle 0 (height / 2))

/-! ## Theorems -/

/-- C9: the backlash value handed to the tooth generator is
`+backlash` when `reversed_backlash` is unset and `-backlash` when it is
set, and the factor `(-flag + 0.5) * 2` is exactly `±1`. -/
theorem involute_backlash_signed (b : ℚ) (r : Bool) :
    backlash_signed b r = (if r then -b else b) ∧
      (-(if r then (1 : ℚ) else 0) + 1 / 2) * 2 = (if r then -1 else 1) := by
  cases r <;> constructor <;> simp [backlash_signed] <;> ring

/-- C10: `HypoCycloidGear.generate_gear_shape` returns `None` exactly when
`show_disk0`, `show_disk1` and `show_pins` are all false. -/
theorem hypo_generate_none_iff (d0 d1 p : Bool) :
    hypo_generate d0 d1 p = none ↔ d0 = false ∧ d1 = false ∧ p = false := by
  cases d0 <;> cases d1 <;> cases p <;> decide

/-- C2 (counterexample): with the `simple` flag set, the involute
generator at height `0` returns a cylinder — a solid — not the outline
wire, so the claim does not hold for every generation with height `0`. -/
theorem height_zero_simple_cylinder :
    involute_shape_dispatch true 0 0 false 0 5 = GearSolid.cylinder 5 0 ∧
      involute_shape_dispatch true 0 0 false 0 5 ≠ GearSolid.wire := by
  constructor
  · rfl
  · simp [involute_shape_dispatch]

/-- C2 (amended): at height `0`, the involute generator with `simple`
unset, the cycloid generator, and the timing generator all return the bare
outline wire and request no solid. -/
theorem height_zero_returns_wire (simple : Bool) (height beta : ℚ)
    (dh : Bool) (angle rw : ℚ) (h0 : height = 0) (hs : simple = false) :
    involute_shape_dispatch simple height beta dh angle rw = GearSolid.wire ∧
      cycloid_shape_dispatch height beta dh angle = GearSolid.wire ∧
      timing_shape_dispatch height = GearSolid.wire := by
  subst h0 hs
  refine ⟨?_, ?_, ?_⟩ <;>
    simp [involute_shape_dispatch, cycloid_shape_dispatch, timing_shape_dispatch]

/-- C2 (witness): concrete instance of the amended claim. -/
theorem height_zero_returns_wire_witness :
    involute_shape_dispatch false 0 3 true 7 9 = GearSolid.wire ∧
      cycloid_shape_dispatch 0 3 true 7 = GearSolid.wire ∧
      timing_shape_dispatch 0 = GearSolid.wire :=
  height_zero_returns_wire false 0 3 true 7 9 rfl rfl

/-- C3 (counterexample): at `teeth = 0` the involute generator raises
nothing: it returns `ok` with an outline (the unrotated tooth profile
followed by the closing segment), not an `InvalidParameter` failure. -/
theorem involute_teeth_zero_returns_outline :
    involute_generate (fun p : ℤ => p + 10) 0 [[0, 1], [2]] =
      Except.ok [[0, 1], [2], [2, 0]] :=
  rfl

/-- C3 (amended): for `teeth = 0` the replication loop body never runs
(`range(-1)` is empty) and the generator still returns an `ok` outline —
the tooth profile plus one closing segment — with no error of any
category. -/
theorem involute_teeth_zero_no_error {P : Type} [Inhabited P] (rot : P → P)
    (tooth : List (List P)) :
    involute_generate rot 0 tooth =
      Except.ok (tooth ++ [[lastPt tooth, firstPt tooth]]) :=
  rfl

/-- C4 (counterexample): a point with radius `5` below `minRadius = 10` is
moved to radius `4 = 5 - offset`: radially inward, not outward as the
claim states. -/
theorem check_limit_below_min_moves_inward :
    (check_limit (PolarPt.mk 5 0) 20 10 1).r = 4 ∧
      ¬ 5 < (check_limit (PolarPt.mk 5 0) 20 10 1).r := by
  norm_num [check_limit]

/-- C4 (amended): outside the band `[minRadius, maxRadius]` — on either
side — the radius is reduced by the fixed offset and the angle kept;
inside the band the point is returned unchanged. -/
theorem check_limit_behavior (p : PolarPt) (maxrad minrad offset : ℚ) :
    ((maxrad < p.r ∨ p.r < minrad) →
        check_limit p maxrad minrad offset = PolarPt.mk (p.r - offset) p.a) ∧
      (minrad ≤ p.r → p.r ≤ maxrad →
        check_limit p maxrad minrad offset = p) := by
  constructor
  · intro h
    simp only [check_limit, if_pos h]
  · intro h1 h2
    have hcond : ¬ (p.r > maxrad ∨ p.r < minrad) := by
      rintro (h3 | h3)
      · exact absurd h3 (not_lt.mpr h2)
      · exact absurd h3 (not_lt.mpr h1)
    simp only [check_limit, if_neg hcond]

/-- C4 (witness): concrete instances of both branches of the amended
claim. -/
theorem check_limit_behavior_witness :
    check_limit (PolarPt.mk 25 2) 20 10 1 = PolarPt.mk 24 2 ∧
      check_limit (PolarPt.mk 15 2) 20 10 1 = PolarPt.mk 15 2 := by
  constructor
  · have h := (check_limit_behavior (PolarPt.mk 25 2) 20 10 1).1 (Or.inl (by norm_num))
    norm_num at h
    exact h
  · exact (check_limit_behavior (PolarPt.mk 15 2) 20 10 1).2 (by norm_num) (by norm_num)

/-- C6 (counterexample): for the odd tooth count `5` and eccentricity
`3/2`, the source's secondary-disk matrix moves the cam center `(-e, 0)`
to `(e, 0)`, while the claimed half turn about the cam center fixes it —
the two transformations disagree, so the secondary profile is not the
primary rotated about the cam center. -/
theorem second_cam_not_about_cam_center :
    (second_cam_mat 5 (3 / 2) 1 0).apply (-(3 / 2), 0) = (3 / 2, 0) ∧
      claimed_second_map 5 (3 / 2) 1 0 (-(3 / 2), 0) = (-(3 / 2), 0) ∧
      ((3 / 2 : ℚ), (0 : ℚ)) ≠ (-(3 / 2), 0) := by
  refine ⟨?_, ?_, ?_⟩ <;>
    norm_num [second_cam_mat, matMove, matRotateZ, affId, Aff.apply,
      claimed_second_map, rotAbout, Prod.ext_iff]

/-- C6 (amended): the secondary-disk matrix is the half turn about the
origin (the pin-circle center) — which carries the cam center `(-e, 0)`
to `(e, 0)` — composed with the additional half-tooth-pitch rotation,
taken about the displaced center `(e, 0)`, if and only if the tooth count
is even. -/
theorem second_cam_mat_characterization (n : Nat) (e c s : ℚ) (p : ℚ × ℚ) :
    (second_cam_mat n e c s).apply p =
      if n % 2 = 0 then rotAbout (e, 0) c s (rotAbout (0, 0) (-1) 0 p)
      else rotAbout (0, 0) (-1) 0 p := by
  by_cases h : n % 2 = 0 <;>
    simp only [second_cam_mat, h, if_true, if_false, matMove, matRotateZ, affId,
      Aff.apply, rotAbout, Prod.mk.injEq] <;>
    constructor <;> ring

/-- Splitting the scan fold into its two independent components. -/
theorem pressure_scan_foldl_split (f : Nat → ℚ) (ang : ℚ) (l : List Nat)
    (a b : ℚ) :
    l.foldl (fun st i => pressure_scan_step ang (f i) i st) (a, b) =
      (l.foldl (fun m i => if f i < ang ∧ m < 0 then (i : ℚ) else m) a,
       l.foldl (fun m i => if f i < -ang ∧ m < 0 then (i : ℚ) - 1 else m) b) := by
  induction l generalizing a b with
  | nil => rfl
  | cons x xs ih =>
    simp only [List.foldl_cons, pressure_scan_step]
    exact ih _ _

/-- A first-hit fold started at `-1` stays at `-1` while the predicate
never holds. -/
theorem firstHit_foldl_no_hit (P : Nat → Prop) [DecidablePred P]
    (val : Nat → ℚ) (n : Nat) (h : ∀ i < n, ¬ P i) :
    (List.range n).foldl (fun m i => if P i ∧ m < 0 then val i else m) (-1) =
      -1 := by
  induction n with
  | zero => rfl
  | succ j ih =>
    rw [List.range_succ, List.foldl_append,
      ih (fun i hi => h i (Nat.lt_succ_of_lt hi))]
    simp only [List.foldl_cons, List.foldl_nil]
    rw [if_neg]
    rintro ⟨hp, _⟩
    exact h j (Nat.lt_succ_self j) hp

/-- A first-hit fold started at `-1` returns the value at the first index
satisfying the predicate, provided that value is nonnegative (so the state
stops being updated afterwards). -/
theorem firstHit_foldl (P : Nat → Prop) [DecidablePred P] (val : Nat → ℚ)
    (n k : Nat) (hk : k < n) (hPk : P k) (hfirst : ∀ i < k, ¬ P i)
    (hval : 0 ≤ val k) :
    (List.range n).foldl (fun m i => if P i ∧ m < 0 then val i else m) (-1) =
      val k := by
  induction n with
  | zero => exact absurd hk (Nat.not_lt_zero k)
  | succ j ih =>
    rw [List.range_succ, List.foldl_append]
    rcases Nat.lt_succ_iff_lt_or_eq.mp hk with h | h
    · rw [ih h]
      simp only [List.foldl_cons, List.foldl_nil]
      rw [if_neg]
      rintro ⟨_, hneg⟩
      exact absurd hval (not_le.mpr hneg)
    · subst h
      rw [firstHit_foldl_no_hit P val k hfirst]
      simp only [List.foldl_cons, List.foldl_nil]
      rw [if_pos ⟨hPk, by norm_num⟩]

set_option maxRecDepth 4096 in
/-- C5: the scan returns, as `minAngle`, the first integer degree
`k < 180` at which the pressure angle drops below the limit and, as
`maxAngle`, the first degree `m` at which it drops below the negated
limit minus one (the previous degree; the scan starts above the negated
limit, so `1 ≤ m`), and the two bracketing radii are the pressure-limit
radius oracle evaluated at exactly those two angles — no further
refinement is applied. -/
theorem pressure_scan_first_crossing (f : Nat → ℚ) (g : ℚ → ℚ) (ang : ℚ)
    (k m : Nat) (hk : k < 180) (hfk : f k < ang)
    (hkfirst : ∀ i < k, ¬ f i < ang) (hm : m < 180) (hm1 : 1 ≤ m)
    (hfm : f m < -ang) (hmfirst : ∀ j < m, ¬ f j < -ang) :
    pressure_scan f ang = ((k : ℚ), (m : ℚ) - 1) ∧
      pressure_limit_radii f g ang = (g (k : ℚ), g ((m : ℚ) - 1)) := by
  have hm0 : (0 : ℚ) ≤ (m : ℚ) - 1 := by
    have h1 : (1 : ℚ) ≤ (m : ℚ) := by exact_mod_cast hm1
    linarith
  have hscan : pressure_scan f ang = ((k : ℚ), (m : ℚ) - 1) := by
    unfold pressure_scan
    rw [pressure_scan_foldl_split]
    refine Prod.ext ?_ ?_
    · exact firstHit_foldl (fun i => f i < ang) (fun i => (i : ℚ)) 180 k hk hfk
        hkfirst (Nat.cast_nonneg k)
    · exact firstHit_foldl (fun j => f j < -ang) (fun j => (j : ℚ) - 1) 180 m hm
        hfm hmfirst hm0
  refine ⟨hscan, ?_⟩
  unfold pressure_limit_radii
  rw [hscan]

/-- C5 (witness): concrete scan of the curve `i ↦ 100 - i` against the
limit `50`: the first crossing below `50` is at `51`, the first crossing
below `-50` is at `151`, so the scan yields `(51, 150)`. -/
theorem pressure_scan_first_crossing_witness :
    pressure_scan (fun i => 100 - (i : ℚ)) 50 = (51, 150) ∧
      pressure_limit_radii (fun i => 100 - (i : ℚ)) (fun x => x) 50 =
        (51, 150) := by
  have h := pressure_scan_first_crossing (fun i => 100 - (i : ℚ)) (fun x => x)
    50 51 151 (by norm_num) (by norm_num)
    (fun i hi => by
      have h2 : (i : ℚ) ≤ 50 := by exact_mod_cast (by omega : i ≤ 50)
      push_neg
      linarith)
    (by norm_num) (by norm_num) (by norm_num)
    (fun j hj => by
      have h2 : (j : ℚ) ≤ 150 := by exact_mod_cast (by omega : j ≤ 150)
      push_neg
      linarith)
  norm_num at h
  exact h

/-- The zeroth copy is the tooth profile itself. -/
theorem toothCopy_zero {P : Type} (rot : P → P) (tooth : List (List P)) :
    toothCopy rot 0 tooth = tooth := by
  simp [toothCopy]

/-- Rotating copy `i` once more gives copy `i + 1`. -/
theorem toothCopy_succ {P : Type} (rot : P → P) (i : Nat)
    (tooth : List (List P)) :
    (toothCopy rot i tooth).map (List.map rot) = toothCopy rot (i + 1) tooth := by
  simp [toothCopy, List.map_map, Function.comp_def, Function.iterate_succ_apply']

/-- Copies of a nonempty profile are nonempty. -/
theorem toothCopy_ne_nil {P : Type} (rot : P → P) (i : Nat)
    (tooth : List (List P)) (ht : tooth ≠ []) :
    toothCopy rot i tooth ≠ [] := by
  simpa [toothCopy] using ht

/-- The last point of an append is the last point of the (nonempty) right
part. -/
theorem lastPt_append {P : Type} [Inhabited P] (xs ys : List (List P))
    (hy : ys ≠ []) : lastPt (xs ++ ys) = lastPt ys := by
  unfold lastPt
  cases hys : ys.getLast? with
  | none => exact absurd (List.getLast?_eq_none_iff.mp hys) hy
  | some v => simp [List.getLastD_eq_getLast?, List.getLast?_append, hys]

/-- The first point of an append is the first point of the (nonempty) left
part. -/
theorem firstPt_append {P : Type} [Inhabited P] (xs ys : List (List P))
    (hx : xs ≠ []) : firstPt (xs ++ ys) = firstPt xs := by
  cases xs with
  | nil => exact absurd rfl hx
  | cons a as => rfl

/-- Chains of a nonempty profile are nonempty. -/
theorem specChain_ne_nil {P : Type} [Inhabited P] (rot : P → P)
    (tooth : List (List P)) (ht : tooth ≠ []) (n : Nat) :
    specChain rot tooth n ≠ [] := by
  cases n with
  | zero => exact ht
  | succ k => simp [specChain, toothCopy_ne_nil rot (k + 1) tooth ht]

/-- The last point of the chain up to copy `n` is the last point of
copy `n`. -/
theorem specChain_lastPt {P : Type} [Inhabited P] (rot : P → P)
    (tooth : List (List P)) (ht : tooth ≠ []) (n : Nat) :
    lastPt (specChain rot tooth n) = lastPt (toothCopy rot n tooth) := by
  cases n with
  | zero => rw [toothCopy_zero]; rfl
  | succ k =>
    show lastPt ((specChain rot tooth k ++ _) ++ toothCopy rot (k + 1) tooth) = _
    rw [lastPt_append _ _ (toothCopy_ne_nil rot (k + 1) tooth ht)]

/-- The first point of any chain is the first point of the tooth
profile. -/
theorem specChain_firstPt {P : Type} [Inhabited P] (rot : P → P)
    (tooth : List (List P)) (ht : tooth ≠ []) (n : Nat) :
    firstPt (specChain rot tooth n) = firstPt tooth := by
  induction n with
  | zero => rfl
  | succ k ih =>
    show firstPt ((specChain rot tooth k ++ _) ++ toothCopy rot (k + 1) tooth) = _
    rw [firstPt_append _ _ (by
      simp [specChain_ne_nil rot tooth ht k]),
      firstPt_append _ _ (specChain_ne_nil rot tooth ht k), ih]

/-- Loop invariant: starting the loop at the chain up to copy `n` with
copy `n` as the running rotated profile, `k` more iterations produce the
chain up to copy `n + k`. -/
theorem assembleLoop_spec {P : Type} [Inhabited P] (rot : P → P)
    (tooth : List (List P)) (ht : tooth ≠ []) (k : Nat) :
    ∀ n, assembleLoop rot k (specChain rot tooth n) (toothCopy rot n tooth) =
      specChain rot tooth (n + k) := by
  induction k with
  | zero => intro n; rfl
  | succ j ih =>
    intro n
    show assembleLoop rot j
      (specChain rot tooth n ++
        [[lastPt (specChain rot tooth n),
          firstPt ((toothCopy rot n tooth).map (List.map rot))]] ++
        (toothCopy rot n tooth).map (List.map rot))
      ((toothCopy rot n tooth).map (List.map rot)) = _
    rw [toothCopy_succ, specChain_lastPt rot tooth ht n]
    have harg : n + 1 + j = n + (j + 1) := by omega
    exact (ih (n + 1)).trans (by rw [harg])

/-- C1: for `z ≥ 1` teeth and a nonempty tooth profile, the assembled
outline is exactly the spec-side outline: the `z` rotated copies of the
tooth, a connecting segment between consecutive copies whose endpoints
are the last point of the already-rotated copy `i` and the first point of
the already-rotated copy `i + 1` (exact coincidence, not within a
tolerance), and a closing segment from the last point of the last copy
back to the first point of the first copy. -/
theorem outline_assembly_matches_spec {P : Type} [Inhabited P] (rot : P → P)
    (z : Nat) (tooth : List (List P)) (hz : 1 ≤ z) (ht : tooth ≠ []) :
    assemble_outline rot z tooth = spec_outline rot z tooth := by
  have h0 : assembleLoop rot (z - 1) tooth tooth =
      specChain rot tooth (z - 1) := by
    have h := assembleLoop_spec rot tooth ht (z - 1) 0
    rw [toothCopy_zero, Nat.zero_add] at h
    exact h
  unfold assemble_outline spec_outline
  rw [h0, specChain_lastPt rot tooth ht, specChain_firstPt rot tooth ht]

/-- C1 (witness): concrete assembly with two teeth over integer points
and the shift-by-ten stand-in for the rotation. -/
theorem outline_assembly_matches_spec_witness :
    1 ≤ 2 ∧ ([[0, 1], [2]] : List (List ℤ)) ≠ [] ∧
      assemble_outline (fun p : ℤ => p + 10) 2 [[0, 1], [2]] =
        spec_outline (fun p : ℤ => p + 10) 2 [[0, 1], [2]] :=
  ⟨by decide, by decide,
    outline_assembly_matches_spec (fun p : ℤ => p + 10) 2 [[0, 1], [2]]
      (by decide) (by decide)⟩

/-- Tangent half-angle form of the sine: the sine of `2 * arctan t`. -/
theorem sin_two_arctan (t : ℝ) :
    Real.sin (2 * Real.arctan t) = 2 * t / (1 + t ^ 2) := by
  have h0 : (0 : ℝ) < 1 + t ^ 2 := by positivity
  have hne : Real.sqrt (1 + t ^ 2) ≠ 0 := by positivity
  rw [Real.sin_two_mul, Real.sin_arctan, Real.cos_arctan, mul_assoc,
    div_mul_div_comm, Real.mul_self_sqrt h0.le]
  ring

/-- Tangent half-angle form of the cosine: the cosine of `2 * arctan t`. -/
theorem cos_two_arctan (t : ℝ) :
    Real.cos (2 * Real.arctan t) = (1 - t ^ 2) / (1 + t ^ 2) := by
  have h0 : (0 : ℝ) < 1 + t ^ 2 := by positivity
  have hne : Real.sqrt (1 + t ^ 2) ≠ 0 := by positivity
  rw [Real.cos_two_mul, Real.cos_arctan]
  field_simp
  ring

/-- Unit-circle identity of the tangent half-angle parametrization. -/
theorem tan_half_circle (t s c : ℝ) (h1 : (1 : ℝ) + t ^ 2 ≠ 0)
    (hs : s = 2 * t / (1 + t ^ 2)) (hc : c = (1 - t ^ 2) / (1 + t ^ 2)) :
    s ^ 2 + c ^ 2 = 1 := by
  subst hs hc
  field_simp
  ring

/-- With `w` a square root of `a ^ 2 + b ^ 2 - d ^ 2`, the quotient
`(-a + w) / (d - b)` is a root of the half-angle quadratic
`(d - b) t ^ 2 + 2 a t + (b + d)` of the tangency equation. -/
theorem tg_quadratic_root (a b d w M N : ℝ) (hM : M = d - b) (hN : N = -a + w)
    (hw : w ^ 2 = a ^ 2 + b ^ 2 - d ^ 2) (hM0 : M ≠ 0) :
    (d - b) * (N / M) ^ 2 + 2 * a * (N / M) + (b + d) = 0 := by
  subst hM hN
  field_simp
  linear_combination (d - b) ^ 2 * hw

/-- A root of the half-angle quadratic solves the linear-in-sine-cosine
equation `a s + b c + d = 0`. -/
theorem tg_linear_of_quadratic (a b d t s c : ℝ) (h1 : (1 : ℝ) + t ^ 2 ≠ 0)
    (hs : s = 2 * t / (1 + t ^ 2)) (hc : c = (1 - t ^ 2) / (1 + t ^ 2))
    (hQ : (d - b) * t ^ 2 + 2 * a * t + (b + d) = 0) :
    a * s + b * c + d = 0 := by
  subst hs hc
  field_simp
  linear_combination hQ

/-- On the unit circle the tangency residual reduces to the linear form
`a s + b c + d` with `a = 2 offset (r5 - r34)`, `b = -2 m23y (r5 - r34)`
and `d` the constant term. -/
theorem tg_residual_linear (m23y offset r5 r34 r23 s c : ℝ)
    (hcirc : s ^ 2 + c ^ 2 = 1)
    (hlin : 2 * offset * (r5 - r34) * s + (-2 * m23y * (r5 - r34)) * c +
      ((r5 - r34) ^ 2 + offset ^ 2 + m23y ^ 2 - (r34 + r23) ^ 2) = 0) :
    tg_residual m23y offset r5 r34 r23 s c = 0 := by
  unfold tg_residual
  linear_combination (r5 - r34) ^ 2 * hcirc + hlin

/-- The source's radicand is exactly the discriminant
`a ^ 2 + b ^ 2 - d ^ 2` of the half-angle quadratic. -/
theorem tg_abc_radicand (m23y offset r5 r34 r23 : ℝ) :
    tg_radicand m23y offset r5 r34 r23 =
      (2 * offset * (r5 - r34)) ^ 2 + (-2 * m23y * (r5 - r34)) ^ 2 -
        ((r5 - r34) ^ 2 + offset ^ 2 + m23y ^ 2 - (r34 + r23) ^ 2) ^ 2 := by
  unfold tg_radicand
  ring

/-- The source's denominator is `d - b`. -/
theorem tg_denom_abc (m23y offset r5 r34 r23 : ℝ) :
    tg_denom m23y offset r5 r34 r23 =
      ((r5 - r34) ^ 2 + offset ^ 2 + m23y ^ 2 - (r34 + r23) ^ 2) -
        (-2 * m23y * (r5 - r34)) := by
  unfold tg_denom
  ring

/-- The source's numerator is `-a + w`. -/
theorem tg_num_abc (offset r5 r34 w : ℝ) :
    tg_num offset r5 r34 w = -(2 * offset * (r5 - r34)) + w := by
  unfold tg_num
  ring

/-- Core algebraic fact: with `w` a square root of the radicand and a
nonzero denominator, the tangent half-angle parametrization of the source
formula satisfies the tangency equation exactly. -/
theorem tg_key (m23y offset r5 r34 r23 w : ℝ)
    (hw : w ^ 2 = tg_radicand m23y offset r5 r34 r23)
    (hM : tg_denom m23y offset r5 r34 r23 ≠ 0) :
    tg_residual m23y offset r5 r34 r23
      (2 * (tg_num offset r5 r34 w / tg_denom m23y offset r5 r34 r23) /
        (1 + (tg_num offset r5 r34 w / tg_denom m23y offset r5 r34 r23) ^ 2))
      ((1 - (tg_num offset r5 r34 w / tg_denom m23y offset r5 r34 r23) ^ 2) /
        (1 + (tg_num offset r5 r34 w / tg_denom m23y offset r5 r34 r23) ^ 2)) =
      0 := by
  have h1 : (1 : ℝ) +
      (tg_num offset r5 r34 w / tg_denom m23y offset r5 r34 r23) ^ 2 ≠ 0 := by
    positivity
  refine tg_residual_linear m23y offset r5 r34 r23 _ _ ?_ ?_
  · exact tan_half_circle _ _ _ h1 rfl rfl
  · refine tg_linear_of_quadratic _ _ _ _ _ _ h1 rfl rfl ?_
    exact tg_quadratic_root (2 * offset * (r5 - r34)) (-2 * m23y * (r5 - r34))
      ((r5 - r34) ^ 2 + offset ^ 2 + m23y ^ 2 - (r34 + r23) ^ 2) w
      (tg_denom m23y offset r5 r34 r23) (tg_num offset r5 r34 w)
      (tg_denom_abc m23y offset r5 r34 r23) (tg_num_abc offset r5 r34 w)
      (hw.trans (tg_abc_radicand m23y offset r5 r34 r23)) hM

/-- C7: the closed-form `phi4` of `TimingGear.generate_gear_shape` is an
exact root of the tangency equation: substituting it back gives residual
exactly `0`, in particular smaller than `1e-9` in absolute value — for
every parameter value (hence in particular for the gt2 constants with
`teeth = 15`, whose radicand is nonnegative and denominator nonzero), with
`w` the square root of the radicand. -/
theorem timing_phi4_exact_root (m23y offset r5 r34 r23 w : ℝ)
    (hw : w ^ 2 = tg_radicand m23y offset r5 r34 r23)
    (hM : tg_denom m23y offset r5 r34 r23 ≠ 0) :
    tg_residual m23y offset r5 r34 r23
        (Real.sin (tg_phi4 m23y offset r5 r34 r23 w))
        (Real.cos (tg_phi4 m23y offset r5 r34 r23 w)) = 0 ∧
      |tg_residual m23y offset r5 r34 r23
          (Real.sin (tg_phi4 m23y offset r5 r34 r23 w))
          (Real.cos (tg_phi4 m23y offset r5 r34 r23 w))| <
        1 / 1000000000 := by
  have hres : tg_residual m23y offset r5 r34 r23
      (Real.sin (tg_phi4 m23y offset r5 r34 r23 w))
      (Real.cos (tg_phi4 m23y offset r5 r34 r23 w)) = 0 := by
    unfold tg_phi4
    rw [sin_two_arctan, cos_two_arctan]
    exact tg_key m23y offset r5 r34 r23 w hw hM
  refine ⟨hres, ?_⟩
  rw [hres]
  norm_num

/-- C7 (witness): a concrete rational instance whose radicand is exactly
`0` (so `w = 0`) and whose denominator is `18`. -/
theorem timing_phi4_exact_root_witness :
    tg_residual 4 3 1 0 4 (Real.sin (tg_phi4 4 3 1 0 4 0))
        (Real.cos (tg_phi4 4 3 1 0 4 0)) = 0 ∧
      |tg_residual 4 3 1 0 4 (Real.sin (tg_phi4 4 3 1 0 4 0))
          (Real.cos (tg_phi4 4 3 1 0 4 0))| < 1 / 1000000000 :=
  timing_phi4_exact_root 4 3 1 0 4 0 (by norm_num [tg_radicand])
    (by norm_num [tg_denom])

/-- C8: the double-helix extrusion is symmetric about its mid-height
plane — mirroring it through `z = height / 2` reproduces it exactly — and
the mirrored half is itself a half-height helical sweep of the opposite
handedness (the sweep with the angle negated, running from `-height / 2`
to `0`). -/
theorem double_helix_mirror_symmetry (rot : ℝ → ℝ × ℝ → ℝ × ℝ)
    (wire : Set (ℝ × ℝ)) (height angle : ℝ) :
    mirrorZ (height / 2) '' helicalextrusion_dh rot wire height angle =
        helicalextrusion_dh rot wire height angle ∧
      mirrorZ 0 '' helixSweep rot wire height angle 0 (height / 2) =
        helixSweep rot wire height (-angle) (-(height / 2)) 0 := by
  have hinv : ∀ q : ℝ × ℝ × ℝ, mirrorZ 0 (mirrorZ 0 q) = q := by
    rintro ⟨x, y, z⟩
    simp [mirrorZ]
  have hcomm : ∀ q : ℝ × ℝ × ℝ, mirrorZ (height / 2) (translateZ (height / 2) q) =
      translateZ (height / 2) (mirrorZ 0 q) := by
    rintro ⟨x, y, z⟩
    simp [mirrorZ, translateZ]
    ring
  constructor
  · unfold helicalextrusion_dh
    rw [Set.image_image]
    have h1 : (fun q => mirrorZ (height / 2) (translateZ (height / 2) q)) ''
        (helixSweep rot wire height angle 0 (height / 2) ∪
          mirrorZ 0 '' helixSweep rot wire height angle 0 (height / 2)) =
        (fun q => translateZ (height / 2) (mirrorZ 0 q)) ''
        (helixSweep rot wire height angle 0 (height / 2) ∪
          mirrorZ 0 '' helixSweep rot wire height angle 0 (height / 2)) :=
      Set.image_congr' hcomm
    rw [h1, ← Set.image_image, Set.image_union, Set.image_image]
    have h2 : (fun q => mirrorZ 0 (mirrorZ 0 q)) ''
        helixSweep rot wire height angle 0 (height / 2) =
        helixSweep rot wire height angle 0 (height / 2) := by
      rw [Set.image_congr' hinv, Set.image_id']
    rw [h2, Set.union_comm]
  · ext q
    simp only [helixSweep, Set.mem_image, Set.mem_setOf_eq]
    constructor
    · rintro ⟨q0, ⟨p, hp, z, hz0, hz1, rfl⟩, rfl⟩
      refine ⟨p, hp, -z, by linarith, by linarith, ?_⟩
      unfold mirrorZ
      rw [neg_mul_neg]
      norm_num
    · rintro ⟨p, hp, z, hz0, hz1, rfl⟩
      refine ⟨((rot (angle * -z / height) p).1,
        (rot (angle * -z / height) p).2, -z), ⟨p, hp, -z, by linarith,
        by linarith, rfl⟩, ?_⟩
      unfold mirrorZ
      rw [mul_neg, ← neg_mul]
      norm_num
